import Mathlib

/-!
Verification of `util/core_local.h` (RocksDB, `rocksdb::CoreLocalArray<T>`).

The class owns a contiguous block of `2 ^ size_shift_` default-constructed
elements of `T`.  We embed it shallowly:

* A pointer into the block is modelled as the abstract address
  `base + index` (element units), where `base` is the address returned by
  the allocation at construction (`data_.get()` in the C++).
* The two external collaborators are modelled as inputs:
  `port::PhysicalCoreID()` is a value `cpuid : Int` (negative means
  "unavailable") and `Random::GetTLSInstance()->Uniform` is a function
  `tlsUniform : Nat → Nat` supplied by the environment.  Neither is part of
  the supplied source; the contract `tlsUniform ub < ub` comes from the
  spec of the random source.
* Machine integers are `Nat`/`Int`.  The one place where the 32-bit width
  of the C++ expression `1u << size_shift_` matters is the constructor's
  search loop, whose guard is evaluated at ever larger shifts; there we
  keep the width explicitly as `% 2 ^ 32`.  Everywhere else the shifts are
  the stored `size_shift_`, which the constructor only ever sets to values
  for which `1u << size_shift_` is exactly `2 ^ size_shift_`.
* `assert` in `AccessAtCore` is modelled by returning `Option`: `none` is
  the assertion firing (the defined precondition-violation behavior),
  `some addr` is a normal return of the pointer `addr`.
-/

namespace rocksdb

/-- The state of a `CoreLocalArray<T>`: the address of the owned block
(`data_.get()`), the contents of the block, and the stored shift
`size_shift_`. -/
structure CoreLocalArray (T : Type) where
  base : Nat
  data_ : List T
  size_shift_ : Nat

namespace CoreLocalArray

variable {T : Type}

/-- The constructor's loop
`while (1u << size_shift_ < num_cpus) ++size_shift_;`, starting from the
current shift `s`.  `1u` is a 32-bit unsigned int, so the guard compares
`(1 <<< s) % 2 ^ 32` with `num_cpus`; for `s ≥ 32` the C++ shift is
undefined behavior, which on common platforms wraps the shifted value to
`0` — we take the wrapped value.  The C++ loop has no fuel; we add `fuel`
to obtain a total function, with `none` meaning the loop has not
terminated within `fuel` iterations. -/
def sizeShiftLoop : Nat → Nat → Nat → Option Nat
  | 0, _, _ => none
  | fuel + 1, s, num_cpus =>
    if (1 <<< s) % 2 ^ 32 < num_cpus then sizeShiftLoop fuel (s + 1) num_cpus
    else some s

/-- The constructor `CoreLocalArray<T>::CoreLocalArray()`.
`num_cpus` is the value returned by `std::thread::hardware_concurrency()`
(an `unsigned int`), `base` the address where the allocation places the
block, and `d` the default-constructed value of `T`.  The shift starts at
`3` and the loop searches upward; `new T[1 << size_shift_]` then allocates
`2 ^ size_shift_` default elements.  Fuel `64` is enough for every
terminating run of the loop (the loop exits at a shift `≤ 31` whenever it
exits at all); `none` models a construction that never completes. -/
def construct (num_cpus : Nat) (base : Nat) (d : T) : Option (CoreLocalArray T) :=
  match sizeShiftLoop 64 3 num_cpus with
  | none => none
  | some s => some ⟨base, List.replicate (2 ^ s) d, s⟩

/-- `CoreLocalArray<T>::Size()`: `return 1u << size_shift_;`.  For every
shift the constructor stores (`≤ 31`), `1u << size_shift_` equals
`2 ^ size_shift_`. -/
def Size (a : CoreLocalArray T) : Nat :=
  2 ^ a.size_shift_

/-- `CoreLocalArray<T>::AccessAtCore(size_t core_idx)`:
`assert(core_idx < 1u << size_shift_); return &data_[core_idx];`.
`none` models the assertion firing; `some` carries the address of slot
`core_idx` inside the owned block. -/
def AccessAtCore (a : CoreLocalArray T) (core_idx : Nat) : Option Nat :=
  if core_idx < 2 ^ a.size_shift_ then some (a.base + core_idx) else none

/-- `CoreLocalArray<T>::AccessElementAndIndex()`.  Queries
`port::PhysicalCoreID()` (the input `cpuid`); when negative, picks
`core_idx = Random::GetTLSInstance()->Uniform(1 << size_shift_)`
(the input function `tlsUniform` applied to `2 ^ size_shift_`), otherwise
`core_idx = cpuid & ((1 << size_shift_) - 1)`; returns
`{AccessAtCore(core_idx), core_idx}`. -/
def AccessElementAndIndex (a : CoreLocalArray T) (cpuid : Int)
    (tlsUniform : Nat → Nat) : Option Nat × Nat :=
  let core_idx : Nat :=
    if cpuid < 0 then tlsUniform (2 ^ a.size_shift_)
    else cpuid.toNat &&& (2 ^ a.size_shift_ - 1)
  (a.AccessAtCore core_idx, core_idx)

/-- `CoreLocalArray<T>::Access()`:
`return AccessElementAndIndex().first;`. -/
def Access (a : CoreLocalArray T) (cpuid : Int) (tlsUniform : Nat → Nat) :
    Option Nat :=
  (a.AccessElementAndIndex cpuid tlsUniform).1

/-- Termination of the constructor's search loop on query value
`num_cpus`: some amount of fuel suffices. -/
def constructTerminates (num_cpus : Nat) : Prop :=
  ∃ fuel, (sizeShiftLoop fuel 3 num_cpus).isSome = true

/-- `Size()` as a state-passing operation: the method is `const` and
assigns no field, so the state it leaves behind is the state it was called
in. -/
def SizeOp (a : CoreLocalArray T) : Nat × CoreLocalArray T :=
  (a.Size, a)

/-- `AccessAtCore` as a state-passing operation (the method is `const`). -/
def AccessAtCoreOp (a : CoreLocalArray T) (core_idx : Nat) :
    Option Nat × CoreLocalArray T :=
  (a.AccessAtCore core_idx, a)

/-- `AccessElementAndIndex` as a state-passing operation (the method is
`const`). -/
def AccessElementAndIndexOp (a : CoreLocalArray T) (cpuid : Int)
    (tlsUniform : Nat → Nat) : (Option Nat × Nat) × CoreLocalArray T :=
  (a.AccessElementAndIndex cpuid tlsUniform, a)

/-- `Access` as a state-passing operation (the method is `const`). -/
def AccessOp (a : CoreLocalArray T) (cpuid : Int) (tlsUniform : Nat → Nat) :
    Option Nat × CoreLocalArray T :=
  (a.Access cpuid tlsUniform, a)

/-- A caller storing `v` through the pointer to slot `i` (the only
mutation the class admits: slot contents change in place). -/
def writeSlot (a : CoreLocalArray T) (i : Nat) (v : T) : CoreLocalArray T :=
  { a with data_ := a.data_.set i v }

end CoreLocalArray

/-- A concrete 8-slot array (`size_shift_ = 3`, as produced by the
constructor on any machine with at most 8 logical cores), used to
instantiate the theorems below at concrete inputs. -/
def sampleArray : CoreLocalArray Nat :=
  ⟨0, List.replicate 8 0, 3⟩

/-- A concrete per-thread random source satisfying the spec's contract
that `Uniform ub < ub` for positive `ub`. -/
def sampleUniform : Nat → Nat :=
  fun ub => ub - 1

/-- A second concrete random source (always picks slot `0`), used to show
that results on the identified-core path do not depend on the random
source. -/
def sampleUniformZero : Nat → Nat :=
  fun _ => 0

/-- The 32-slot array the constructor builds on a machine reporting 20
logical cores (`size_shift_ = 5`). -/
def sampleArray32 : CoreLocalArray Nat :=
  ⟨0, List.replicate 32 0, 5⟩

namespace CoreLocalArray

/-- When the hardware-concurrency value exceeds `2 ^ 31`, the guard
`(1u << s) % 2^32 < num_cpus` holds at every shift (the shifted value is
at most `2 ^ 31`, and wraps to `0` once the shift reaches the word width),
so the constructor's loop never exits, whatever the fuel. -/
theorem sizeShiftLoop_diverges {n : Nat} (hn : 2 ^ 31 < n) :
    ∀ fuel s, sizeShiftLoop fuel s n = none := by
  intro fuel
  induction fuel with
  | zero => intro s; rfl
  | succ fuel ih =>
    intro s
    have hguard : (1 <<< s) % 2 ^ 32 < n := by
      rw [Nat.one_shiftLeft]
      rcases Nat.lt_or_ge s 32 with hs | hs
      · have h1 : (2 : Nat) ^ s ≤ 2 ^ 31 := Nat.pow_le_pow_right (by norm_num) (by omega)
        have h2 : (2 : Nat) ^ s < 2 ^ 32 := lt_of_le_of_lt h1 (by norm_num)
        rw [Nat.mod_eq_of_lt h2]
        exact lt_of_le_of_lt h1 hn
      · have hdvd : (2 : Nat) ^ 32 ∣ 2 ^ s := pow_dvd_pow 2 hs
        have h0 : (2 : Nat) ^ s % 2 ^ 32 = 0 := Nat.mod_eq_zero_of_dvd hdvd
        rw [h0]
        omega
    rw [sizeShiftLoop, if_pos hguard]
    exact ih (s + 1)

/-- When the hardware-concurrency value is at most `2 ^ 31`, the
constructor's loop, run from a shift `s ∈ [3, 31]` such that every smaller
shift is insufficient, exits with the smallest shift `r` satisfying
`max num_cpus 8 ≤ 2 ^ r`, provided at least `32 - s` iterations of fuel. -/
theorem sizeShiftLoop_min {n : Nat} (hn : n ≤ 2 ^ 31) :
    ∀ fuel s, 3 ≤ s → s ≤ 31 → (∀ t, t < s → 2 ^ t < max n 8) →
    32 - s ≤ fuel →
    ∃ r, sizeShiftLoop fuel s n = some r ∧ max n 8 ≤ 2 ^ r ∧
      ∀ t, max n 8 ≤ 2 ^ t → r ≤ t := by
  intro fuel
  induction fuel with
  | zero => intro s _ hs31 _ hfuel; omega
  | succ fuel ih =>
    intro s hs3 hs31 hbelow hfuel
    have hshift : (1 <<< s) % 2 ^ 32 = 2 ^ s := by
      rw [Nat.one_shiftLeft]
      exact Nat.mod_eq_of_lt
        (lt_of_le_of_lt (Nat.pow_le_pow_right (by norm_num) hs31) (by norm_num))
    rw [sizeShiftLoop, hshift]
    rcases Nat.lt_or_ge (2 ^ s) n with hlt | hge
    · rw [if_pos hlt]
      have hs31lt : s < 31 := by
        by_contra hcon
        have : (2 : Nat) ^ 31 ≤ 2 ^ s := Nat.pow_le_pow_right (by norm_num) (by omega)
        omega
      refine ih (s + 1) (by omega) (by omega) ?_ (by omega)
      intro t ht
      rcases Nat.lt_or_ge t s with htlt | htge
      · exact hbelow t htlt
      · have hts : t = s := by omega
        subst hts
        exact lt_of_lt_of_le hlt (Nat.le_max_left n 8)
    · rw [if_neg (by omega)]
      refine ⟨s, rfl, ?_, ?_⟩
      · have h8 : (8 : Nat) ≤ 2 ^ s := by
          calc (8 : Nat) = 2 ^ 3 := by norm_num
          _ ≤ 2 ^ s := Nat.pow_le_pow_right (by norm_num) hs3
        omega
      · intro t hmax
        by_contra hcon
        have := hbelow t (by omega)
        omega

/-- The loop the constructor actually runs: fuel `64`, start shift `3`.
When the query value is at most `2 ^ 31` it returns the smallest shift `r`
with `2 ^ r ≥ max num_cpus 8`. -/
theorem sizeShiftLoop_construct {n : Nat} (hn : n ≤ 2 ^ 31) :
    ∃ r, sizeShiftLoop 64 3 n = some r ∧ max n 8 ≤ 2 ^ r ∧
      ∀ t, max n 8 ≤ 2 ^ t → r ≤ t := by
  refine sizeShiftLoop_min hn 64 3 (by omega) (by omega) ?_ (by omega)
  intro t ht
  have h1 : (2 : Nat) ^ t ≤ 2 ^ 2 := Nat.pow_le_pow_right (by norm_num) (by omega)
  have h2 : (8 : Nat) ≤ max n 8 := Nat.le_max_right n 8
  omega

/-- A valid index passes the `AccessAtCore` assertion and yields the
address of its slot. -/
theorem AccessAtCore_lt {T : Type} {a : CoreLocalArray T} {i : Nat}
    (h : i < 2 ^ a.size_shift_) :
    a.AccessAtCore i = some (a.base + i) := by
  rw [AccessAtCore, if_pos h]

end CoreLocalArray

/-- C1: at construction, the stored shift is the smallest shift with
`2 ^ shift ≥ max(num_cpus, 8)`, and `Size()` returns `2 ^ shift`; hence
`Size()` of every constructed array is a power of two, is at least `8`,
and is at least the number of available cores. -/
theorem C1_size_shift_minimal {T : Type} (n base : Nat) (d : T)
    (a : CoreLocalArray T) (h : CoreLocalArray.construct n base d = some a) :
    a.Size = 2 ^ a.size_shift_ ∧
    max n 8 ≤ 2 ^ a.size_shift_ ∧
    (∀ t, max n 8 ≤ 2 ^ t → a.size_shift_ ≤ t) ∧
    (∃ k, a.Size = 2 ^ k) ∧ 8 ≤ a.Size ∧ n ≤ a.Size := by
  rcases le_or_lt n (2 ^ 31) with hn | hn
  · obtain ⟨r, hr, hub, hmin⟩ := CoreLocalArray.sizeShiftLoop_construct hn
    have hc : CoreLocalArray.construct n base d =
        some ⟨base, List.replicate (2 ^ r) d, r⟩ := by
      unfold CoreLocalArray.construct
      rw [hr]
    rw [hc] at h
    injection h with h
    subst h
    refine ⟨rfl, hub, hmin, ⟨r, rfl⟩, ?_, ?_⟩ <;>
      · show _ ≤ 2 ^ r
        omega
  · have hdiv : CoreLocalArray.construct n base d = none := by
      unfold CoreLocalArray.construct
      rw [CoreLocalArray.sizeShiftLoop_diverges hn 64 3]
    rw [hdiv] at h
    exact Option.noConfusion h

/-- Witness for C1 at `num_cpus = 20`: construction yields shift `5`,
`Size = 32`. -/
theorem C1_size_shift_minimal_witness :
    (CoreLocalArray.construct 20 0 (0 : Nat) = some sampleArray32) ∧
    (sampleArray32.Size = 2 ^ sampleArray32.size_shift_ ∧
     max 20 8 ≤ 2 ^ sampleArray32.size_shift_ ∧
     (∀ t, max 20 8 ≤ 2 ^ t → sampleArray32.size_shift_ ≤ t) ∧
     (∃ k, sampleArray32.Size = 2 ^ k) ∧
     8 ≤ sampleArray32.Size ∧ 20 ≤ sampleArray32.Size) :=
  ⟨rfl, C1_size_shift_minimal 20 0 0 sampleArray32 rfl⟩

/-- C2: with a valid non-negative core id, `AccessElementAndIndex`
computes `index = cpuid & (Size() - 1)`, its returned pointer is exactly
`AccessAtCore` of its returned index, and `Access` returns exactly the
pointer component of `AccessElementAndIndex`. -/
theorem C2_index_and_pointer {T : Type} (a : CoreLocalArray T) (cpuid : Int)
    (tlsUniform : Nat → Nat) (h : 0 ≤ cpuid) :
    (a.AccessElementAndIndex cpuid tlsUniform).2 =
      cpuid.toNat &&& (a.Size - 1) ∧
    (a.AccessElementAndIndex cpuid tlsUniform).1 =
      a.AccessAtCore (a.AccessElementAndIndex cpuid tlsUniform).2 ∧
    a.Access cpuid tlsUniform = (a.AccessElementAndIndex cpuid tlsUniform).1 := by
  have hniff : ¬ cpuid < 0 := not_lt.2 h
  refine ⟨?_, rfl, rfl⟩
  simp [CoreLocalArray.AccessElementAndIndex, CoreLocalArray.Size, hniff]

/-- Witness for C2 at the 8-slot array with `cpuid = 13`. -/
theorem C2_index_and_pointer_witness :
    ((0 : Int) ≤ 13) ∧
    ((sampleArray.AccessElementAndIndex 13 sampleUniform).2 =
      (13 : Int).toNat &&& (sampleArray.Size - 1) ∧
     (sampleArray.AccessElementAndIndex 13 sampleUniform).1 =
      sampleArray.AccessAtCore (sampleArray.AccessElementAndIndex 13 sampleUniform).2 ∧
     sampleArray.Access 13 sampleUniform =
      (sampleArray.AccessElementAndIndex 13 sampleUniform).1) :=
  ⟨by decide, C2_index_and_pointer sampleArray 13 sampleUniform (by decide)⟩

/-- C3: `Access` and `AccessElementAndIndex` always succeed; on a negative
core id the index comes from the per-thread uniform source over
`[0, Size())`, and in both branches the index is below `Size()`, so the
`AccessAtCore` assertion never fires. -/
theorem C3_always_succeeds {T : Type} (a : CoreLocalArray T) (cpuid : Int)
    (tlsUniform : Nat → Nat) (hu : tlsUniform a.Size < a.Size) :
    (a.AccessElementAndIndex cpuid tlsUniform).2 < a.Size ∧
    (a.AccessElementAndIndex cpuid tlsUniform).1 =
      some (a.base + (a.AccessElementAndIndex cpuid tlsUniform).2) ∧
    (a.Access cpuid tlsUniform).isSome = true ∧
    (cpuid < 0 →
      (a.AccessElementAndIndex cpuid tlsUniform).2 = tlsUniform a.Size) := by
  have hidx : (a.AccessElementAndIndex cpuid tlsUniform).2 < 2 ^ a.size_shift_ := by
    by_cases hneg : cpuid < 0
    · simpa [CoreLocalArray.AccessElementAndIndex, CoreLocalArray.Size, hneg] using hu
    · have hmod : (a.AccessElementAndIndex cpuid tlsUniform).2 =
          cpuid.toNat % 2 ^ a.size_shift_ := by
        simp [CoreLocalArray.AccessElementAndIndex, hneg]
      rw [hmod]
      exact Nat.mod_lt _ (Nat.two_pow_pos _)
  have h1 : (a.AccessElementAndIndex cpuid tlsUniform).1 =
      some (a.base + (a.AccessElementAndIndex cpuid tlsUniform).2) :=
    CoreLocalArray.AccessAtCore_lt hidx
  refine ⟨hidx, h1, ?_, ?_⟩
  · show (a.AccessElementAndIndex cpuid tlsUniform).1.isSome = true
    rw [h1]
    rfl
  · intro hneg
    simp [CoreLocalArray.AccessElementAndIndex, CoreLocalArray.Size, hneg]

/-- Witness for C3 at the 8-slot array with an unavailable core id
(`cpuid = -1`) and the sample random source. -/
theorem C3_always_succeeds_witness :
    (sampleUniform sampleArray.Size < sampleArray.Size) ∧
    ((sampleArray.AccessElementAndIndex (-1) sampleUniform).2 < sampleArray.Size ∧
     (sampleArray.AccessElementAndIndex (-1) sampleUniform).1 =
      some (sampleArray.base + (sampleArray.AccessElementAndIndex (-1) sampleUniform).2) ∧
     (sampleArray.Access (-1) sampleUniform).isSome = true ∧
     ((-1 : Int) < 0 →
      (sampleArray.AccessElementAndIndex (-1) sampleUniform).2 =
        sampleUniform sampleArray.Size)) :=
  ⟨by decide, C3_always_succeeds sampleArray (-1) sampleUniform (by decide)⟩

/-- C4: `AccessAtCore` at any index at or above `Size()` hits the
precondition-violation behavior (the assertion fires, modelled as `none`)
and never silently returns a pointer. -/
theorem C4_out_of_range {T : Type} (a : CoreLocalArray T) (i : Nat)
    (h : a.Size ≤ i) :
    a.AccessAtCore i = none := by
  rw [CoreLocalArray.AccessAtCore, if_neg]
  exact not_lt.2 h

/-- Witness for C4 at the 8-slot array with index `8 = Size()`. -/
theorem C4_out_of_range_witness :
    (sampleArray.Size ≤ 8) ∧ sampleArray.AccessAtCore 8 = none :=
  ⟨by decide, C4_out_of_range sampleArray 8 (by decide)⟩

/-- C5: masking equivalence — for a non-negative core id `c`, the index
`c & (Size() - 1)` computed by `AccessElementAndIndex` equals
`c mod Size()`. -/
theorem C5_mask_eq_mod {T : Type} (a : CoreLocalArray T) (cpuid : Int)
    (tlsUniform : Nat → Nat) (h : 0 ≤ cpuid) :
    cpuid.toNat &&& (a.Size - 1) = cpuid.toNat % a.Size ∧
    (a.AccessElementAndIndex cpuid tlsUniform).2 = cpuid.toNat % a.Size := by
  have hmask : cpuid.toNat &&& (a.Size - 1) = cpuid.toNat % a.Size := by
    rw [CoreLocalArray.Size]
    exact Nat.and_pow_two_sub_one_eq_mod _ _
  refine ⟨hmask, ?_⟩
  have hniff : ¬ cpuid < 0 := not_lt.2 h
  rw [← hmask]
  simp [CoreLocalArray.AccessElementAndIndex, CoreLocalArray.Size, hniff]

/-- Witness for C5: with `Size() = 8` and `c = 13` the index is
`13 & 7 = 5`, which equals `13 mod 8 = 5`. -/
theorem C5_mask_eq_mod_witness :
    ((0 : Int) ≤ 13) ∧
    ((13 : Int).toNat &&& (sampleArray.Size - 1) = (13 : Int).toNat % sampleArray.Size ∧
     (sampleArray.AccessElementAndIndex 13 sampleUniform).2 =
       (13 : Int).toNat % sampleArray.Size) ∧
    sampleArray.Size = 8 ∧
    (sampleArray.AccessElementAndIndex 13 sampleUniform).2 = 5 :=
  ⟨by decide, C5_mask_eq_mod sampleArray 13 sampleUniform (by decide),
    by decide, by decide⟩

/-- C6 (amended): the constructor's loop terminates, and construction
succeeds, for every hardware-concurrency value `n ≤ 2 ^ 31`; for larger
values the 32-bit shift in the loop guard can never reach `num_cpus` and
the loop does not terminate. -/
theorem C6_construct_terminates {T : Type} (n base : Nat) (d : T)
    (hn : n ≤ 2 ^ 31) :
    CoreLocalArray.constructTerminates n ∧
    ∃ a : CoreLocalArray T, CoreLocalArray.construct n base d = some a := by
  obtain ⟨r, hr, _, _⟩ := CoreLocalArray.sizeShiftLoop_construct hn
  constructor
  · exact ⟨64, by rw [hr]; rfl⟩
  · refine ⟨⟨base, List.replicate (2 ^ r) d, r⟩, ?_⟩
    unfold CoreLocalArray.construct
    rw [hr]

/-- Witness for C6 (amended) at `num_cpus = 16`. -/
theorem C6_construct_terminates_witness :
    ((16 : Nat) ≤ 2 ^ 31) ∧
    (CoreLocalArray.constructTerminates 16 ∧
     ∃ a : CoreLocalArray Nat, CoreLocalArray.construct 16 0 0 = some a) :=
  ⟨by norm_num, C6_construct_terminates 16 0 (0 : Nat) (by norm_num)⟩

/-- Counterexample for C6 as stated: at the largest value an `unsigned
int` hardware-concurrency query can return, `2 ^ 32 - 1`, the
constructor's loop never terminates (no amount of fuel makes it exit). -/
theorem C6_counterexample :
    ¬ CoreLocalArray.constructTerminates (2 ^ 32 - 1) := by
  rintro ⟨fuel, hf⟩
  rw [CoreLocalArray.sizeShiftLoop_diverges (by norm_num) fuel 3] at hf
  exact Bool.noConfusion hf

/-- C7: `AccessAtCore` is injective on `[0, Size())`: distinct valid
indices give distinct addresses, each lying inside the owned block. -/
theorem C7_injective {T : Type} (a : CoreLocalArray T) (i j : Nat)
    (hi : i < a.Size) (hj : j < a.Size) (hij : i ≠ j) :
    a.AccessAtCore i = some (a.base + i) ∧
    a.AccessAtCore j = some (a.base + j) ∧
    a.AccessAtCore i ≠ a.AccessAtCore j ∧
    a.base ≤ a.base + i ∧ a.base + i < a.base + a.Size := by
  have hi' : i < 2 ^ a.size_shift_ := hi
  have hj' : j < 2 ^ a.size_shift_ := hj
  refine ⟨?_, ?_, ?_, Nat.le_add_right _ _, by omega⟩
  · rw [CoreLocalArray.AccessAtCore, if_pos hi']
  · rw [CoreLocalArray.AccessAtCore, if_pos hj']
  · rw [CoreLocalArray.AccessAtCore, if_pos hi', CoreLocalArray.AccessAtCore,
      if_pos hj']
    intro hcon
    injection hcon with hcon
    omega

/-- Witness for C7 at the 8-slot array with indices `2` and `5`. -/
theorem C7_injective_witness :
    ((2 : Nat) < sampleArray.Size) ∧ ((5 : Nat) < sampleArray.Size) ∧
    ((2 : Nat) ≠ 5) ∧
    (sampleArray.AccessAtCore 2 = some (sampleArray.base + 2) ∧
     sampleArray.AccessAtCore 5 = some (sampleArray.base + 5) ∧
     sampleArray.AccessAtCore 2 ≠ sampleArray.AccessAtCore 5 ∧
     sampleArray.base ≤ sampleArray.base + 2 ∧
     sampleArray.base + 2 < sampleArray.base + sampleArray.Size) :=
  ⟨by decide, by decide, by decide,
    C7_injective sampleArray 2 5 (by decide) (by decide) (by decide)⟩

/-- C8: with the core-identification service returning one fixed
non-negative core id, `AccessElementAndIndex` (hence `Access`) returns the
same pointer and index on every call, independently of the random
source. -/
theorem C8_deterministic {T : Type} (a : CoreLocalArray T) (cpuid : Int)
    (u₁ u₂ : Nat → Nat) (h : 0 ≤ cpuid) :
    a.AccessElementAndIndex cpuid u₁ = a.AccessElementAndIndex cpuid u₂ ∧
    a.Access cpuid u₁ = a.Access cpuid u₂ := by
  have hniff : ¬ cpuid < 0 := not_lt.2 h
  constructor <;>
    simp [CoreLocalArray.AccessElementAndIndex, CoreLocalArray.Access, hniff]

/-- Witness for C8 at the 8-slot array with `cpuid = 3` and two different
random sources. -/
theorem C8_deterministic_witness :
    ((0 : Int) ≤ 3) ∧
    (sampleArray.AccessElementAndIndex 3 sampleUniform =
      sampleArray.AccessElementAndIndex 3 sampleUniformZero ∧
     sampleArray.Access 3 sampleUniform = sampleArray.Access 3 sampleUniformZero) :=
  ⟨by decide, C8_deterministic sampleArray 3 sampleUniform sampleUniformZero (by decide)⟩

/-- C9: frame property — `Size`, `Access`, `AccessElementAndIndex` and
`AccessAtCore` are `const` and leave the whole state (block address and
stored shift included) unchanged; a write through a returned slot pointer
changes at most the slot contents, never `base` or `size_shift_`. -/
theorem C9_frame {T : Type} (a : CoreLocalArray T) (i : Nat) (v : T)
    (cpuid : Int) (u : Nat → Nat) :
    (a.SizeOp).2 = a ∧
    (a.AccessOp cpuid u).2 = a ∧
    (a.AccessElementAndIndexOp cpuid u).2 = a ∧
    (a.AccessAtCoreOp i).2 = a ∧
    (a.writeSlot i v).base = a.base ∧
    (a.writeSlot i v).size_shift_ = a.size_shift_ :=
  ⟨rfl, rfl, rfl, rfl, rfl, rfl⟩

/-- C10: when the hardware-concurrency query reports `0`, construction
succeeds with stored shift `3`, so `Size()` returns `8`. -/
theorem C10_zero_cpus {T : Type} (base : Nat) (d : T) :
    CoreLocalArray.construct 0 base d = some ⟨base, List.replicate 8 d, 3⟩ ∧
    (⟨base, List.replicate 8 d, 3⟩ : CoreLocalArray T).size_shift_ = 3 ∧
    (⟨base, List.replicate 8 d, 3⟩ : CoreLocalArray T).Size = 8 :=
  ⟨rfl, rfl, rfl⟩

end rocksdb
